import Mathlib

/-!
Verification development for the AVR stopwatch program `Stop_Watch.c`.

The program keeps three `uint8_t` counters `g_seconds`, `g_minutes`,
`g_hours`, mutated by four interrupt service routines (timer tick,
reset, pause, resume) and normalized (carry propagation) once per
main-loop iteration, and it drives six multiplexed seven-segment
displays through PORTA (position enable) and PORTC (digit bus).

Machine integers are embedded as `Nat` with an explicit `% 256` where
the 8-bit registers can overflow.  The timer run state is carried by
the `TCCR1B` register value, exactly as in the source (pause clears
clock-select bits CS10 and CS12, resume sets them).
-/

namespace StopWatch

/-- Shared mutable state of the program: the three `uint8_t` counters
`g_seconds`, `g_minutes`, `g_hours`, and the timer-1 control register
`TCCR1B` that holds the clock-select bits. -/
structure ClockState where
  seconds : Nat
  minutes : Nat
  hours   : Nat
  tccr1b  : Nat
deriving DecidableEq

/-- State right after startup: counters zero, and `TIMER1_CTC_Init`
has executed `TCCR1B |= (1<<WGM12) | (1<<CS10) | (1<<CS12)` on the
reset value 0 (WGM12 is bit 3, CS10 bit 0, CS12 bit 2). -/
def initState : ClockState :=
  { seconds := 0, minutes := 0, hours := 0
    tccr1b := ((0 ||| (1 <<< 3)) ||| (1 <<< 0)) ||| (1 <<< 2) }

/-- Body of `ISR(TIMER1_COMPA_vect)`: `g_seconds += 1` on a `uint8_t`. -/
def tickISR (st : ClockState) : ClockState :=
  { st with seconds := (st.seconds + 1) % 256 }

/-- Body of `ISR(INT0_vect)`: `g_seconds = 0; g_minutes = 0; g_hours = 0`. -/
def resetISR (st : ClockState) : ClockState :=
  { st with seconds := 0, minutes := 0, hours := 0 }

/-- Body of `ISR(INT1_vect)`: `TCCR1B &= ~(1<<CS10); TCCR1B &= ~(1<<CS12)`.
On the 8-bit register `~(1<<0)` is `0xFE` and `~(1<<2)` is `0xFB`. -/
def pauseISR (st : ClockState) : ClockState :=
  { st with tccr1b := (st.tccr1b &&& 0xFE) &&& 0xFB }

/-- Body of `ISR(INT2_vect)`: `TCCR1B |= (1<<CS10) | (1<<CS12)`. -/
def resumeISR (st : ClockState) : ClockState :=
  { st with tccr1b := st.tccr1b ||| ((1 <<< 0) ||| (1 <<< 2)) }

/-- The timer has a clock source iff the clock-select field CS12:CS10
(low three bits of `TCCR1B`) is nonzero; only then do compare-match
ticks occur. -/
def timerRunning (st : ClockState) : Bool :=
  (st.tccr1b &&& 7) != 0

/-- Carry-normalization step at the top of the `while(1)` loop in `main`:
three sequential checks, each applying at most one carry, on the
`uint8_t` counters. -/
def normalize (st : ClockState) : ClockState :=
  let st1 := if st.seconds = 60 then
    { st with seconds := 0, minutes := (st.minutes + 1) % 256 } else st
  let st2 := if st1.minutes = 60 then
    { st1 with minutes := 0, hours := (st1.hours + 1) % 256 } else st1
  if st2.hours = 60 then { st2 with hours := 0 } else st2

/-- Asynchronous events that can hit the shared state between two
main-loop iterations. -/
inductive Ev where
  | tick
  | reset
  | pause
  | resume
deriving DecidableEq

/-- Effect of one event: a timer tick only occurs (and runs `tickISR`)
while the timer has a clock source; the three button interrupts run
their handlers unconditionally. -/
def applyEv : Ev → ClockState → ClockState
  | Ev.tick, st => if timerRunning st then tickISR st else st
  | Ev.reset, st => resetISR st
  | Ev.pause, st => pauseISR st
  | Ev.resume, st => resumeISR st

/-- Effect of a finite sequence of events, oldest first. -/
def applyEvs (evs : List Ev) (st : ClockState) : ClockState :=
  evs.foldl (fun s e => applyEv e s) st

/-- Number of timer ticks in an event sequence. -/
def tickCount : List Ev → Nat
  | [] => 0
  | Ev.tick :: evs => tickCount evs + 1
  | _ :: evs => tickCount evs

/-- States observed immediately after the main loop's carry
normalization, when between two successive normalizations at most one
timer tick (and any number of reset/pause/resume events) fired. -/
inductive Reach : ClockState → Prop where
  | init : Reach (normalize initState)
  | step (evs : List Ev) (s : ClockState) :
      Reach s → tickCount evs ≤ 1 → Reach (normalize (applyEvs evs s))

/-- One main-loop iteration of the timing logic when exactly one tick
fired since the previous iteration: the tick handler runs, then the
carry normalization at the top of the loop. -/
def loopIter (st : ClockState) : ClockState :=
  normalize (applyEv Ev.tick st)

/-- Modelled from the spec, step 1 of the carry normalization as §4.3
words it: if seconds equals 60 then seconds becomes 0 and minutes is
incremented by one (`uint8_t` increment). -/
def carrySecondsSpec (st : ClockState) : ClockState :=
  if st.seconds = 60 then
    { st with seconds := 0, minutes := (st.minutes + 1) % 256 } else st

/-- Modelled from the spec, step 2 of the carry normalization: if
minutes equals 60 then minutes becomes 0 and hours is incremented. -/
def carryMinutesSpec (st : ClockState) : ClockState :=
  if st.minutes = 60 then
    { st with minutes := 0, hours := (st.hours + 1) % 256 } else st

/-- Modelled from the spec, step 3 of the carry normalization: if
hours equals 60 then hours becomes 0. -/
def carryHoursSpec (st : ClockState) : ClockState :=
  if st.hours = 60 then { st with hours := 0 } else st

/-- Output registers of the display: PORTA carries the six
position-enable bits (low six bits), PORTC the 4-bit digit bus (low
four bits). -/
structure Ports where
  porta : Nat
  portc : Nat
deriving DecidableEq

/-- First half of `Display_Seconds`: `PORTA = (PORTA & 0xC0) | 0x01;
PORTC = (PORTC & 0xF0) | (g_seconds % 10)`. -/
def Display_Seconds_sub1 (g_seconds : Nat) (p : Ports) : Ports :=
  { porta := (p.porta &&& 0xC0) ||| 0x01
    portc := (p.portc &&& 0xF0) ||| (g_seconds % 10) }

/-- Second half of `Display_Seconds`: `PORTA = (PORTA & 0xC0) | 0x02;
PORTC = (PORTC & 0xF0) | (g_seconds / 10)`. -/
def Display_Seconds_sub2 (g_seconds : Nat) (p : Ports) : Ports :=
  { porta := (p.porta &&& 0xC0) ||| 0x02
    portc := (p.portc &&& 0xF0) ||| (g_seconds / 10) }

/-- `Display_Seconds`: the two sub-steps in sequence (the delays do
not touch registers). -/
def Display_Seconds (g_seconds : Nat) (p : Ports) : Ports :=
  Display_Seconds_sub2 g_seconds (Display_Seconds_sub1 g_seconds p)

/-- First half of `Display_Minutes`: enable bit `0x04`, digit
`g_minutes % 10`. -/
def Display_Minutes_sub1 (g_minutes : Nat) (p : Ports) : Ports :=
  { porta := (p.porta &&& 0xC0) ||| 0x04
    portc := (p.portc &&& 0xF0) ||| (g_minutes % 10) }

/-- Second half of `Display_Minutes`: enable bit `0x08`, digit
`g_minutes / 10`. -/
def Display_Minutes_sub2 (g_minutes : Nat) (p : Ports) : Ports :=
  { porta := (p.porta &&& 0xC0) ||| 0x08
    portc := (p.portc &&& 0xF0) ||| (g_minutes / 10) }

/-- `Display_Minutes`: the two sub-steps in sequence. -/
def Display_Minutes (g_minutes : Nat) (p : Ports) : Ports :=
  Display_Minutes_sub2 g_minutes (Display_Minutes_sub1 g_minutes p)

/-- First half of `Display_Hours`: enable bit `0x10`, digit
`g_hours % 10`. -/
def Display_Hours_sub1 (g_hours : Nat) (p : Ports) : Ports :=
  { porta := (p.porta &&& 0xC0) ||| 0x10
    portc := (p.portc &&& 0xF0) ||| (g_hours % 10) }

/-- Second half of `Display_Hours`: enable bit `0x20`, digit
`g_hours / 10`. -/
def Display_Hours_sub2 (g_hours : Nat) (p : Ports) : Ports :=
  { porta := (p.porta &&& 0xC0) ||| 0x20
    portc := (p.portc &&& 0xF0) ||| (g_hours / 10) }

/-- `Display_Hours`: the two sub-steps in sequence. -/
def Display_Hours (g_hours : Nat) (p : Ports) : Ports :=
  Display_Hours_sub2 g_hours (Display_Hours_sub1 g_hours p)

/-- Exactly one of the six low-order (position-enable) bits of a port
value is set. -/
def oneHot6 (x : Nat) : Prop :=
  x &&& 0x3F = 0x01 ∨ x &&& 0x3F = 0x02 ∨ x &&& 0x3F = 0x04 ∨
  x &&& 0x3F = 0x08 ∨ x &&& 0x3F = 0x10 ∨ x &&& 0x3F = 0x20

/-! Helper lemmas about masked register writes. -/

/-- A masked PORTA write `(p & 0xC0) | k` restricted to the six
position bits is just the selector `k` restricted to them. -/
lemma sel_low (p k : Nat) : ((p &&& 0xC0) ||| k) &&& 0x3F = k &&& 0x3F := by
  rw [Nat.and_distrib_right, Nat.and_assoc]
  have h : (0xC0 : Nat) &&& 0x3F = 0 := by decide
  rw [h, Nat.and_zero, Nat.zero_or]

/-- A masked PORTA write with a selector clear of the top two bits
preserves the top two bits. -/
lemma sel_high (p k : Nat) (hk : k &&& 0xC0 = 0) :
    ((p &&& 0xC0) ||| k) &&& 0xC0 = p &&& 0xC0 := by
  rw [Nat.and_distrib_right, Nat.and_assoc, hk]
  have h : (0xC0 : Nat) &&& 0xC0 = 0xC0 := by decide
  rw [h, Nat.or_zero]

/-- A masked PORTA write is zero on any mask disjoint from both the
kept bits `0xC0` and the written selector. -/
lemma sel_other (p k m : Nat) (h1 : (0xC0 : Nat) &&& m = 0)
    (h2 : k &&& m = 0) : ((p &&& 0xC0) ||| k) &&& m = 0 := by
  rw [Nat.and_distrib_right, Nat.and_assoc, h1, Nat.and_zero, h2, Nat.zero_or]

/-- A value below 16 is unchanged by masking with `0x0F`. -/
lemma small_and_fifteen (d : Nat) (hd : d < 16) : d &&& 0x0F = d := by
  have h := Nat.and_pow_two_sub_one_of_lt_two_pow (x := d) (n := 4) (by omega)
  norm_num at h
  exact h

/-- A value below 16 is annihilated by masking with `0xF0`. -/
lemma small_and_high (d : Nat) (hd : d < 16) : d &&& 0xF0 = 0 := by
  have h := small_and_fifteen d hd
  have c : (0x0F : Nat) &&& 0xF0 = 0 := by decide
  calc d &&& 0xF0 = (d &&& 0x0F) &&& 0xF0 := by rw [h]
    _ = d &&& (0x0F &&& 0xF0) := Nat.and_assoc d 0x0F 0xF0
    _ = d &&& 0 := by rw [c]
    _ = 0 := Nat.and_zero d

/-- A masked PORTC write of a digit below 16 puts the digit in the low
nibble. -/
lemma digit_low (c d : Nat) (hd : d < 16) :
    ((c &&& 0xF0) ||| d) &&& 0x0F = d := by
  rw [Nat.and_distrib_right, Nat.and_assoc]
  have h1 : (0xF0 : Nat) &&& 0x0F = 0 := by decide
  rw [h1, Nat.and_zero, Nat.zero_or, small_and_fifteen d hd]

/-- A masked PORTC write of a digit below 16 preserves the high nibble. -/
lemma digit_high (c d : Nat) (hd : d < 16) :
    ((c &&& 0xF0) ||| d) &&& 0xF0 = c &&& 0xF0 := by
  rw [Nat.and_distrib_right, Nat.and_assoc]
  have h1 : (0xF0 : Nat) &&& 0xF0 = 0xF0 := by decide
  rw [h1, small_and_high d hd, Nat.or_zero]

/-- The two single-bit clears of `pauseISR` amount to one mask with
`0xFA`. -/
lemma pause_tccr (t : Nat) : (t &&& 0xFE) &&& 0xFB = t &&& 0xFA := by
  have c : (0xFE : Nat) &&& 0xFB = 0xFA := by decide
  rw [Nat.and_assoc, c]

/-- Once the clock-select field has CS11 clear, the pause handler
leaves the timer with no clock source. -/
lemma pause_stops (st : ClockState) (h : st.tccr1b &&& 2 = 0) :
    timerRunning (pauseISR st) = false := by
  have key : ((st.tccr1b &&& 0xFE) &&& 0xFB) &&& 7 = 0 := by
    have c : (0xFA : Nat) &&& 7 = 2 := by decide
    rw [pause_tccr, Nat.and_assoc, c]
    exact h
  simp [timerRunning, pauseISR, key]

/-- Any value with bit 0 forced on is nonzero after masking with 7. -/
lemma or5_and7_ne_zero (x : Nat) : (x ||| 5) &&& 7 ≠ 0 := by
  intro h0
  have hb : ((x ||| 5) &&& 7).testBit 0 = true := by
    rw [Nat.testBit_and, Nat.testBit_or]
    simp
  rw [h0] at hb
  simp at hb

/-- The resume handler always leaves the timer with a clock source. -/
lemma resume_runs (st : ClockState) : timerRunning (resumeISR st) = true := by
  have h5 : ((1 <<< 0) ||| (1 <<< 2) : Nat) = 5 := by decide
  have key := or5_and7_ne_zero st.tccr1b
  simp [timerRunning, resumeISR, h5, key]

/-- While the timer has no clock source, any number of would-be tick
periods leave the state untouched. -/
lemma ticks_stopped (n : Nat) (s : ClockState) (h : timerRunning s = false) :
    applyEvs (List.replicate n Ev.tick) s = s := by
  induction n with
  | zero => rfl
  | succ m ih =>
    have step : applyEvs (List.replicate (m + 1) Ev.tick) s =
        applyEvs (List.replicate m Ev.tick) (applyEv Ev.tick s) := rfl
    rw [step]
    have he : applyEv Ev.tick s = s := by
      simp [applyEv, h]
    rw [he, ih]

/-- Any positive number of consecutive reset events collapses to a
single run of the reset handler. -/
lemma resets_collapse (m : Nat) (st : ClockState) :
    applyEvs (List.replicate (m + 1) Ev.reset) st = resetISR st := by
  induction m generalizing st with
  | zero => rfl
  | succ k ih =>
    have step : applyEvs (List.replicate (k + 1 + 1) Ev.reset) st =
        applyEvs (List.replicate (k + 1) Ev.reset) (resetISR st) := rfl
    rw [step, ih]
    rfl

/-- C2: each main-loop iteration performs exactly the three carry
checks in order, each applying at most one carry (seconds to minutes,
then minutes to hours, then the hours wrap), and a counter not equal
to its modulus is left unchanged. -/
theorem C2_normalize_three_checks (st : ClockState) :
    normalize st = carryHoursSpec (carryMinutesSpec (carrySecondsSpec st)) ∧
    (st.seconds ≠ 60 → st.minutes ≠ 60 → st.hours ≠ 60 → normalize st = st) := by
  refine ⟨rfl, ?_⟩
  intro h1 h2 h3
  simp [normalize, h1, h2, h3]

/-- Witness for C2 at the state (5, 4, 3) with TCCR1B = 13. -/
theorem C2_witness :
    normalize ⟨5, 4, 3, 13⟩ =
      carryHoursSpec (carryMinutesSpec (carrySecondsSpec ⟨5, 4, 3, 13⟩)) ∧
    normalize ⟨5, 4, 3, 13⟩ = ⟨5, 4, 3, 13⟩ :=
  ⟨(C2_normalize_three_checks ⟨5, 4, 3, 13⟩).1,
   (C2_normalize_three_checks ⟨5, 4, 3, 13⟩).2 (by decide) (by decide) (by decide)⟩

/-- C3 counterexample: with PORTA starting as 0x04 (the minutes-ones
position enabled, one of the four positions not assigned to seconds),
a call to `Display_Seconds` does not leave that enable bit unchanged:
the masked write `PORTA = (PORTA & 0xC0) | k` clears it. -/
theorem C3_counterexample :
    ¬ ((Display_Seconds 0 { porta := 0x04, portc := 0 }).porta &&& 0x04 =
       ({ porta := 0x04, portc := 0 } : Ports).porta &&& 0x04) := by decide

/-- C3 amended: each display routine overwrites the whole six-bit
position-enable field rather than only its own two bits.  It preserves
exactly the two non-position bits of PORTA (mask 0xC0), finishes with
only its own tens-position bit set, and forces the four enable bits
belonging to the other two fields to zero. -/
theorem C3_display_frame (p : Ports) (s : Nat) :
    (Display_Seconds s p).porta = (p.porta &&& 0xC0) ||| 0x02 ∧
    (Display_Seconds s p).porta &&& 0xC0 = p.porta &&& 0xC0 ∧
    (Display_Seconds s p).porta &&& 0x3C = 0 ∧
    (Display_Minutes s p).porta = (p.porta &&& 0xC0) ||| 0x08 ∧
    (Display_Minutes s p).porta &&& 0xC0 = p.porta &&& 0xC0 ∧
    (Display_Minutes s p).porta &&& 0x33 = 0 ∧
    (Display_Hours s p).porta = (p.porta &&& 0xC0) ||| 0x20 ∧
    (Display_Hours s p).porta &&& 0xC0 = p.porta &&& 0xC0 ∧
    (Display_Hours s p).porta &&& 0x0F = 0 := by
  have es : (Display_Seconds s p).porta = (p.porta &&& 0xC0) ||| 0x02 := by
    show (((p.porta &&& 0xC0) ||| 0x01) &&& 0xC0) ||| 0x02 = (p.porta &&& 0xC0) ||| 0x02
    rw [sel_high p.porta 0x01 (by decide)]
  have em : (Display_Minutes s p).porta = (p.porta &&& 0xC0) ||| 0x08 := by
    show (((p.porta &&& 0xC0) ||| 0x04) &&& 0xC0) ||| 0x08 = (p.porta &&& 0xC0) ||| 0x08
    rw [sel_high p.porta 0x04 (by decide)]
  have eh : (Display_Hours s p).porta = (p.porta &&& 0xC0) ||| 0x20 := by
    show (((p.porta &&& 0xC0) ||| 0x10) &&& 0xC0) ||| 0x20 = (p.porta &&& 0xC0) ||| 0x20
    rw [sel_high p.porta 0x10 (by decide)]
  refine ⟨es, ?_, ?_, em, ?_, ?_, eh, ?_, ?_⟩
  · rw [es]; exact sel_high p.porta 0x02 (by decide)
  · rw [es]; exact sel_other p.porta 0x02 0x3C (by decide) (by decide)
  · rw [em]; exact sel_high p.porta 0x08 (by decide)
  · rw [em]; exact sel_other p.porta 0x08 0x33 (by decide) (by decide)
  · rw [eh]; exact sel_high p.porta 0x20 (by decide)
  · rw [eh]; exact sel_other p.porta 0x20 0x0F (by decide) (by decide)

/-- C5: the reset handler zeroes all three counters, and repeating it
any positive number of times with no intervening tick gives the same
post-state as running it once. -/
theorem C5_reset_idempotent (st : ClockState) (n : Nat) (h : 1 ≤ n) :
    applyEvs (List.replicate n Ev.reset) st = resetISR st ∧
    (resetISR st).seconds = 0 ∧ (resetISR st).minutes = 0 ∧
    (resetISR st).hours = 0 := by
  obtain ⟨m, rfl⟩ : ∃ m, n = m + 1 := ⟨n - 1, by omega⟩
  exact ⟨resets_collapse m st, rfl, rfl, rfl⟩

/-- Witness for C5: three consecutive resets from the state (7, 8, 9). -/
theorem C5_witness :
    (1 ≤ 3) ∧
    (applyEvs (List.replicate 3 Ev.reset) ⟨7, 8, 9, 13⟩ = resetISR ⟨7, 8, 9, 13⟩ ∧
     (resetISR (⟨7, 8, 9, 13⟩ : ClockState)).seconds = 0 ∧
     (resetISR (⟨7, 8, 9, 13⟩ : ClockState)).minutes = 0 ∧
     (resetISR (⟨7, 8, 9, 13⟩ : ClockState)).hours = 0) :=
  ⟨by decide, C5_reset_idempotent ⟨7, 8, 9, 13⟩ 3 (by decide)⟩

/-- C6: on any state whose TCCR1B has the (never set by this program)
CS11 bit clear, the pause handler removes the timer clock source,
leaves all counters unchanged, and is idempotent. -/
theorem C6_pause_idempotent (st : ClockState) (h : st.tccr1b &&& 2 = 0) :
    timerRunning (pauseISR st) = false ∧
    (pauseISR st).seconds = st.seconds ∧
    (pauseISR st).minutes = st.minutes ∧
    (pauseISR st).hours = st.hours ∧
    pauseISR (pauseISR st) = pauseISR st := by
  obtain ⟨a, b, c, d⟩ := st
  refine ⟨pause_stops _ h, rfl, rfl, rfl, ?_⟩
  have k1 : (d &&& 0xFE) &&& 0xFB = d &&& 0xFA := pause_tccr d
  have key : (((d &&& 0xFE) &&& 0xFB) &&& 0xFE) &&& 0xFB = (d &&& 0xFE) &&& 0xFB := by
    rw [k1, pause_tccr, Nat.and_assoc]
    have cc : (0xFA : Nat) &&& 0xFA = 0xFA := by decide
    rw [cc]
  show ClockState.mk a b c ((((d &&& 0xFE) &&& 0xFB) &&& 0xFE) &&& 0xFB) =
       ClockState.mk a b c ((d &&& 0xFE) &&& 0xFB)
  rw [key]

/-- Witness for C6 at the running state (10, 5, 2) with TCCR1B = 13. -/
theorem C6_witness :
    ((⟨10, 5, 2, 13⟩ : ClockState).tccr1b &&& 2 = 0) ∧
    (timerRunning (pauseISR ⟨10, 5, 2, 13⟩) = false ∧
     (pauseISR (⟨10, 5, 2, 13⟩ : ClockState)).seconds = (⟨10, 5, 2, 13⟩ : ClockState).seconds ∧
     (pauseISR (⟨10, 5, 2, 13⟩ : ClockState)).minutes = (⟨10, 5, 2, 13⟩ : ClockState).minutes ∧
     (pauseISR (⟨10, 5, 2, 13⟩ : ClockState)).hours = (⟨10, 5, 2, 13⟩ : ClockState).hours ∧
     pauseISR (pauseISR ⟨10, 5, 2, 13⟩) = pauseISR ⟨10, 5, 2, 13⟩) :=
  ⟨by decide, C6_pause_idempotent ⟨10, 5, 2, 13⟩ (by decide)⟩

set_option maxRecDepth 40000 in
/-- C8: starting from all-zero counters with the timer running, 61
tick events, each followed by the main-loop carry normalization,
leave the clock at one minute and one second. -/
theorem C8_sixty_one_ticks :
    loopIter^[61] initState = { seconds := 1, minutes := 1, hours := 0, tccr1b := 13 } := by
  decide

/-- C9 counterexample: with hours already at 59, the claimed
post-state hours = h + 1 = 60 is not produced; the normalization wraps
hours to 0 in the same pass. -/
theorem C9_counterexample :
    ¬ (normalize (normalize (tickISR { seconds := 59, minutes := 59, hours := 59, tccr1b := 13 })) =
       { seconds := 0, minutes := 0, hours := 59 + 1, tccr1b := 13 }) := by
  decide

/-- C9 amended: from minutes = 59, seconds = 59 and any hours value h
with h + 1 < 60, one tick followed by two normalization passes yields
seconds = 0, minutes = 0 and hours = h + 1 (at h = 59 the same pass
instead wraps hours to 0). -/
theorem C9_carry_amended (h t : Nat) (hh : h + 1 < 60) :
    normalize (normalize (tickISR { seconds := 59, minutes := 59, hours := h, tccr1b := t })) =
    { seconds := 0, minutes := 0, hours := h + 1, tccr1b := t } := by
  have hm : (h + 1) % 256 = h + 1 := Nat.mod_eq_of_lt (by omega)
  have hn : ¬(h + 1 = 60) := by omega
  have e1 : tickISR { seconds := 59, minutes := 59, hours := h, tccr1b := t } =
      { seconds := 60, minutes := 59, hours := h, tccr1b := t } := by
    simp [tickISR]
  have e2 : normalize { seconds := 60, minutes := 59, hours := h, tccr1b := t } =
      { seconds := 0, minutes := 0, hours := h + 1, tccr1b := t } := by
    simp [normalize, hm, hn]
  have e3 : normalize { seconds := 0, minutes := 0, hours := h + 1, tccr1b := t } =
      { seconds := 0, minutes := 0, hours := h + 1, tccr1b := t } := by
    simp [normalize, hn]
  rw [e1, e2, e3]

/-- Unfolding step for event sequences. -/
lemma applyEvs_cons (e : Ev) (evs : List Ev) (s : ClockState) :
    applyEvs (e :: evs) s = applyEvs evs (applyEv e s) := rfl

/-- Between two normalizations, a batch of events containing at most
the claimed tick budget keeps seconds within 60 and the other
counters within 59. -/
lemma applyEvs_pre (evs : List Ev) (s : ClockState)
    (hs : s.seconds + tickCount evs ≤ 60) (hm : s.minutes ≤ 59)
    (hh : s.hours ≤ 59) :
    (applyEvs evs s).seconds ≤ 60 ∧ (applyEvs evs s).minutes ≤ 59 ∧
    (applyEvs evs s).hours ≤ 59 := by
  induction evs generalizing s with
  | nil =>
    refine ⟨?_, hm, hh⟩
    show s.seconds ≤ 60
    have h0 : tickCount ([] : List Ev) = 0 := rfl
    omega
  | cons e evs ih =>
    rw [applyEvs_cons]
    cases e with
    | tick =>
      have hc : tickCount (Ev.tick :: evs) = tickCount evs + 1 := rfl
      rw [hc] at hs
      by_cases hr : timerRunning s = true
      · have ha : applyEv Ev.tick s = tickISR s := by simp [applyEv, hr]
        rw [ha]
        apply ih
        · show (s.seconds + 1) % 256 + tickCount evs ≤ 60
          have hlt : (s.seconds + 1) % 256 = s.seconds + 1 :=
            Nat.mod_eq_of_lt (by omega)
          omega
        · exact hm
        · exact hh
      · have ha : applyEv Ev.tick s = s := by simp [applyEv, hr]
        rw [ha]
        exact ih s (by omega) hm hh
    | reset =>
      have hc : tickCount (Ev.reset :: evs) = tickCount evs := rfl
      rw [hc] at hs
      have ha : applyEv Ev.reset s = resetISR s := rfl
      rw [ha]
      apply ih
      · show (0 : Nat) + tickCount evs ≤ 60
        omega
      · show (0 : Nat) ≤ 59
        omega
      · show (0 : Nat) ≤ 59
        omega
    | pause =>
      have hc : tickCount (Ev.pause :: evs) = tickCount evs := rfl
      rw [hc] at hs
      have ha : applyEv Ev.pause s = pauseISR s := rfl
      rw [ha]
      exact ih (pauseISR s) hs hm hh
    | resume =>
      have hc : tickCount (Ev.resume :: evs) = tickCount evs := rfl
      rw [hc] at hs
      have ha : applyEv Ev.resume s = resumeISR s := rfl
      rw [ha]
      exact ih (resumeISR s) hs hm hh

/-- One pass of the carry normalization restores all three counters to
their 0..59 ranges as long as seconds entered at most 60. -/
lemma normalize_bounds (s : ClockState) (hs : s.seconds ≤ 60)
    (hm : s.minutes ≤ 59) (hh : s.hours ≤ 59) :
    (normalize s).seconds ≤ 59 ∧ (normalize s).minutes ≤ 59 ∧
    (normalize s).hours ≤ 59 := by
  simp only [normalize]
  split <;> split <;> split <;> refine ⟨?_, ?_, ?_⟩ <;> (try simp_all) <;> omega

/-- C1: every state observed right after the main loop's carry
normalization, under interleavings with at most one tick between
successive iterations and arbitrary reset/pause/resume events, has
seconds, minutes and hours all in 0..59. -/
theorem C1_reachable_bounds (st : ClockState) (h : Reach st) :
    st.seconds ≤ 59 ∧ st.minutes ≤ 59 ∧ st.hours ≤ 59 := by
  induction h with
  | init => decide
  | step evs s hr hT ih =>
    obtain ⟨ih1, ih2, ih3⟩ := ih
    have pre := applyEvs_pre evs s (by omega) ih2 ih3
    exact normalize_bounds _ pre.1 pre.2.1 pre.2.2

/-- Witness for C1 at the first normalized state of the program. -/
theorem C1_witness :
    Reach (normalize initState) ∧
    ((normalize initState).seconds ≤ 59 ∧ (normalize initState).minutes ≤ 59 ∧
     (normalize initState).hours ≤ 59) :=
  ⟨Reach.init, C1_reachable_bounds (normalize initState) Reach.init⟩

/-- C4: the tick handler adds exactly one to seconds and touches
nothing else, and no other routine increments seconds: pause and
resume leave it unchanged, reset forces it to zero, and normalization
leaves it unchanged whenever it is not at the carry value 60. -/
theorem C4_tick_sole_increment (st : ClockState) (h : st.seconds < 255) :
    (tickISR st).seconds = st.seconds + 1 ∧
    (tickISR st).minutes = st.minutes ∧
    (tickISR st).hours = st.hours ∧
    (tickISR st).tccr1b = st.tccr1b ∧
    (pauseISR st).seconds = st.seconds ∧
    (resumeISR st).seconds = st.seconds ∧
    (resetISR st).seconds = 0 ∧
    (st.seconds ≠ 60 → (normalize st).seconds = st.seconds) := by
  refine ⟨?_, rfl, rfl, rfl, rfl, rfl, rfl, ?_⟩
  · show (st.seconds + 1) % 256 = st.seconds + 1
    exact Nat.mod_eq_of_lt (by omega)
  · intro h60
    simp only [normalize, h60, if_false]
    split <;> split <;> rfl

/-- Witness for C4 at the state (10, 5, 2). -/
theorem C4_witness :
    ((⟨10, 5, 2, 13⟩ : ClockState).seconds < 255) ∧
    ((tickISR (⟨10, 5, 2, 13⟩ : ClockState)).seconds = (⟨10, 5, 2, 13⟩ : ClockState).seconds + 1 ∧
     (tickISR (⟨10, 5, 2, 13⟩ : ClockState)).minutes = (⟨10, 5, 2, 13⟩ : ClockState).minutes ∧
     (tickISR (⟨10, 5, 2, 13⟩ : ClockState)).hours = (⟨10, 5, 2, 13⟩ : ClockState).hours ∧
     (tickISR (⟨10, 5, 2, 13⟩ : ClockState)).tccr1b = (⟨10, 5, 2, 13⟩ : ClockState).tccr1b ∧
     (pauseISR (⟨10, 5, 2, 13⟩ : ClockState)).seconds = (⟨10, 5, 2, 13⟩ : ClockState).seconds ∧
     (resumeISR (⟨10, 5, 2, 13⟩ : ClockState)).seconds = (⟨10, 5, 2, 13⟩ : ClockState).seconds ∧
     (resetISR (⟨10, 5, 2, 13⟩ : ClockState)).seconds = 0 ∧
     ((⟨10, 5, 2, 13⟩ : ClockState).seconds ≠ 60 →
      (normalize ⟨10, 5, 2, 13⟩).seconds = (⟨10, 5, 2, 13⟩ : ClockState).seconds)) :=
  ⟨by decide, C4_tick_sole_increment ⟨10, 5, 2, 13⟩ (by decide)⟩

/-- C7: from any counter state whose TCCR1B has CS11 clear, a pause
followed by any number of would-be tick periods leaves the counters
untouched, and after a resume the timer has a clock source again, the
next tick event really runs the tick handler, and it increments
seconds from exactly the preserved counter values. -/
theorem C7_pause_resume (st : ClockState) (n : Nat) (h : st.tccr1b &&& 2 = 0) :
    (applyEvs (List.replicate n Ev.tick) (pauseISR st)).seconds = st.seconds ∧
    (applyEvs (List.replicate n Ev.tick) (pauseISR st)).minutes = st.minutes ∧
    (applyEvs (List.replicate n Ev.tick) (pauseISR st)).hours = st.hours ∧
    timerRunning (resumeISR (applyEvs (List.replicate n Ev.tick) (pauseISR st))) = true ∧
    applyEv Ev.tick (resumeISR (applyEvs (List.replicate n Ev.tick) (pauseISR st))) =
      tickISR (resumeISR (applyEvs (List.replicate n Ev.tick) (pauseISR st))) ∧
    (tickISR (resumeISR (applyEvs (List.replicate n Ev.tick) (pauseISR st)))).seconds =
      (st.seconds + 1) % 256 ∧
    (tickISR (resumeISR (applyEvs (List.replicate n Ev.tick) (pauseISR st)))).minutes =
      st.minutes ∧
    (tickISR (resumeISR (applyEvs (List.replicate n Ev.tick) (pauseISR st)))).hours =
      st.hours := by
  have hstop := ticks_stopped n (pauseISR st) (pause_stops st h)
  rw [hstop]
  refine ⟨rfl, rfl, rfl, resume_runs _, ?_, rfl, rfl, rfl⟩
  simp [applyEv, resume_runs]

/-- Witness for C7: pause at (10, 5, 2), one hundred blocked tick
periods, then resume. -/
theorem C7_witness :
    ((⟨10, 5, 2, 13⟩ : ClockState).tccr1b &&& 2 = 0) ∧
    ((applyEvs (List.replicate 100 Ev.tick) (pauseISR ⟨10, 5, 2, 13⟩)).seconds =
       (⟨10, 5, 2, 13⟩ : ClockState).seconds ∧
     (applyEvs (List.replicate 100 Ev.tick) (pauseISR ⟨10, 5, 2, 13⟩)).minutes =
       (⟨10, 5, 2, 13⟩ : ClockState).minutes ∧
     (applyEvs (List.replicate 100 Ev.tick) (pauseISR ⟨10, 5, 2, 13⟩)).hours =
       (⟨10, 5, 2, 13⟩ : ClockState).hours ∧
     timerRunning (resumeISR (applyEvs (List.replicate 100 Ev.tick)
       (pauseISR ⟨10, 5, 2, 13⟩))) = true ∧
     applyEv Ev.tick (resumeISR (applyEvs (List.replicate 100 Ev.tick)
         (pauseISR ⟨10, 5, 2, 13⟩))) =
       tickISR (resumeISR (applyEvs (List.replicate 100 Ev.tick)
         (pauseISR ⟨10, 5, 2, 13⟩))) ∧
     (tickISR (resumeISR (applyEvs (List.replicate 100 Ev.tick)
         (pauseISR ⟨10, 5, 2, 13⟩)))).seconds =
       ((⟨10, 5, 2, 13⟩ : ClockState).seconds + 1) % 256 ∧
     (tickISR (resumeISR (applyEvs (List.replicate 100 Ev.tick)
         (pauseISR ⟨10, 5, 2, 13⟩)))).minutes = (⟨10, 5, 2, 13⟩ : ClockState).minutes ∧
     (tickISR (resumeISR (applyEvs (List.replicate 100 Ev.tick)
         (pauseISR ⟨10, 5, 2, 13⟩)))).hours = (⟨10, 5, 2, 13⟩ : ClockState).hours) :=
  ⟨by decide, C7_pause_resume ⟨10, 5, 2, 13⟩ 100 (by decide)⟩

/-- A masked PORTA write whose selector has exactly one of the six low
bits set yields a one-hot position-enable field. -/
lemma oneHot6_masked_write (q k : Nat)
    (hk : k &&& 0x3F = 0x01 ∨ k &&& 0x3F = 0x02 ∨ k &&& 0x3F = 0x04 ∨
          k &&& 0x3F = 0x08 ∨ k &&& 0x3F = 0x10 ∨ k &&& 0x3F = 0x20) :
    oneHot6 ((q &&& 0xC0) ||| k) := by
  unfold oneHot6
  rw [sel_low]
  exact hk

/-- Witness for C9 amended at hours = 2. -/
theorem C9_witness :
    (2 + 1 < 60) ∧
    normalize (normalize (tickISR { seconds := 59, minutes := 59, hours := 2, tccr1b := 13 })) =
      { seconds := 0, minutes := 0, hours := 2 + 1, tccr1b := 13 } :=
  ⟨by decide, C9_carry_amended 2 13 (by decide)⟩

/-- C10: after each of the two sub-steps of every display routine,
whatever PORTA held before, exactly one of the six position-enable
bits is set; and every digit-bus write keeps the upper nibble of PORTC
while placing value mod 10 (first sub-step) or value div 10 (second
sub-step) in the lower nibble. -/
theorem C10_display_invariants (p : Ports) (s m h : Nat)
    (hs : s ≤ 60) (hm : m ≤ 60) (hh : h ≤ 60) :
    oneHot6 (Display_Seconds_sub1 s p).porta ∧
    oneHot6 (Display_Seconds s p).porta ∧
    oneHot6 (Display_Minutes_sub1 m p).porta ∧
    oneHot6 (Display_Minutes m p).porta ∧
    oneHot6 (Display_Hours_sub1 h p).porta ∧
    oneHot6 (Display_Hours h p).porta ∧
    (Display_Seconds_sub1 s p).portc &&& 0x0F = s % 10 ∧
    (Display_Seconds_sub1 s p).portc &&& 0xF0 = p.portc &&& 0xF0 ∧
    (Display_Seconds s p).portc &&& 0x0F = s / 10 ∧
    (Display_Seconds s p).portc &&& 0xF0 = p.portc &&& 0xF0 ∧
    (Display_Minutes_sub1 m p).portc &&& 0x0F = m % 10 ∧
    (Display_Minutes_sub1 m p).portc &&& 0xF0 = p.portc &&& 0xF0 ∧
    (Display_Minutes m p).portc &&& 0x0F = m / 10 ∧
    (Display_Minutes m p).portc &&& 0xF0 = p.portc &&& 0xF0 ∧
    (Display_Hours_sub1 h p).portc &&& 0x0F = h % 10 ∧
    (Display_Hours_sub1 h p).portc &&& 0xF0 = p.portc &&& 0xF0 ∧
    (Display_Hours h p).portc &&& 0x0F = h / 10 ∧
    (Display_Hours h p).portc &&& 0xF0 = p.portc &&& 0xF0 := by
  have hs1 : s % 10 < 16 := by omega
  have hs2 : s / 10 < 16 := by omega
  have hm1 : m % 10 < 16 := by omega
  have hm2 : m / 10 < 16 := by omega
  have hh1 : h % 10 < 16 := by omega
  have hh2 : h / 10 < 16 := by omega
  refine ⟨oneHot6_masked_write p.porta 0x01 (by decide),
          oneHot6_masked_write _ 0x02 (by decide),
          oneHot6_masked_write p.porta 0x04 (by decide),
          oneHot6_masked_write _ 0x08 (by decide),
          oneHot6_masked_write p.porta 0x10 (by decide),
          oneHot6_masked_write _ 0x20 (by decide),
          digit_low p.portc (s % 10) hs1,
          digit_high p.portc (s % 10) hs1,
          digit_low _ (s / 10) hs2,
          ?_, digit_low p.portc (m % 10) hm1,
          digit_high p.portc (m % 10) hm1,
          digit_low _ (m / 10) hm2,
          ?_, digit_low p.portc (h % 10) hh1,
          digit_high p.portc (h % 10) hh1,
          digit_low _ (h / 10) hh2,
          ?_⟩
  · show ((((p.portc &&& 0xF0) ||| (s % 10)) &&& 0xF0) ||| (s / 10)) &&& 0xF0 = p.portc &&& 0xF0
    rw [digit_high _ (s / 10) hs2, digit_high p.portc (s % 10) hs1]
  · show ((((p.portc &&& 0xF0) ||| (m % 10)) &&& 0xF0) ||| (m / 10)) &&& 0xF0 = p.portc &&& 0xF0
    rw [digit_high _ (m / 10) hm2, digit_high p.portc (m % 10) hm1]
  · show ((((p.portc &&& 0xF0) ||| (h % 10)) &&& 0xF0) ||| (h / 10)) &&& 0xF0 = p.portc &&& 0xF0
    rw [digit_high _ (h / 10) hh2, digit_high p.portc (h % 10) hh1]

/-- Witness for C10 at PORTA = 0xAB, PORTC = 0xCD with counter values
34, 59 and 60. -/
theorem C10_witness :
    (34 ≤ 60) ∧ (59 ≤ 60) ∧ (60 ≤ 60) ∧
    (oneHot6 (Display_Seconds_sub1 34 ⟨0xAB, 0xCD⟩).porta ∧
     oneHot6 (Display_Seconds 34 ⟨0xAB, 0xCD⟩).porta ∧
     oneHot6 (Display_Minutes_sub1 59 ⟨0xAB, 0xCD⟩).porta ∧
     oneHot6 (Display_Minutes 59 ⟨0xAB, 0xCD⟩).porta ∧
     oneHot6 (Display_Hours_sub1 60 ⟨0xAB, 0xCD⟩).porta ∧
     oneHot6 (Display_Hours 60 ⟨0xAB, 0xCD⟩).porta ∧
     (Display_Seconds_sub1 34 (⟨0xAB, 0xCD⟩ : Ports)).portc &&& 0x0F = 34 % 10 ∧
     (Display_Seconds_sub1 34 (⟨0xAB, 0xCD⟩ : Ports)).portc &&& 0xF0 =
       (⟨0xAB, 0xCD⟩ : Ports).portc &&& 0xF0 ∧
     (Display_Seconds 34 (⟨0xAB, 0xCD⟩ : Ports)).portc &&& 0x0F = 34 / 10 ∧
     (Display_Seconds 34 (⟨0xAB, 0xCD⟩ : Ports)).portc &&& 0xF0 =
       (⟨0xAB, 0xCD⟩ : Ports).portc &&& 0xF0 ∧
     (Display_Minutes_sub1 59 (⟨0xAB, 0xCD⟩ : Ports)).portc &&& 0x0F = 59 % 10 ∧
     (Display_Minutes_sub1 59 (⟨0xAB, 0xCD⟩ : Ports)).portc &&& 0xF0 =
       (⟨0xAB, 0xCD⟩ : Ports).portc &&& 0xF0 ∧
     (Display_Minutes 59 (⟨0xAB, 0xCD⟩ : Ports)).portc &&& 0x0F = 59 / 10 ∧
     (Display_Minutes 59 (⟨0xAB, 0xCD⟩ : Ports)).portc &&& 0xF0 =
       (⟨0xAB, 0xCD⟩ : Ports).portc &&& 0xF0 ∧
     (Display_Hours_sub1 60 (⟨0xAB, 0xCD⟩ : Ports)).portc &&& 0x0F = 60 % 10 ∧
     (Display_Hours_sub1 60 (⟨0xAB, 0xCD⟩ : Ports)).portc &&& 0xF0 =
       (⟨0xAB, 0xCD⟩ : Ports).portc &&& 0xF0 ∧
     (Display_Hours 60 (⟨0xAB, 0xCD⟩ : Ports)).portc &&& 0x0F = 60 / 10 ∧
     (Display_Hours 60 (⟨0xAB, 0xCD⟩ : Ports)).portc &&& 0xF0 =
       (⟨0xAB, 0xCD⟩ : Ports).portc &&& 0xF0) :=
  ⟨by decide, by decide, by decide,
   C10_display_invariants ⟨0xAB, 0xCD⟩ 34 59 60 (by decide) (by decide) (by decide)⟩

end StopWatch
